import Mathlib

/-!
# Verification of the OSLC TypeScript client core

A shallow embedding of the core of the `oslc-client-new-ts` repository:
the `OSLCResource` wrapper over an rdflib triple store
(`src/OSLCResource.ts`), the discovery documents (`src/RootServices.ts`,
`src/ServiceProviderCatalog.ts`, `src/ServiceProvider.ts`) and the
orchestrating client (`dist/OSLCClient.js`): its authentication
response interceptor, the discovery chain `use`, `getResource`,
`putResource` and the paginated `queryWithBase`.

The rdflib `IndexedFormula` store is modelled as a list of statements in
insertion order.  rdflib's `add` skips a statement that is already held
(an RDF graph is a set of triples), `statementsMatching` filters in
insertion order, and `any`/`the` return the first match.  HTTP transport
and RDF parsing are modelled as explicit function parameters ("servers")
so every client operation is a pure function of the response data.
-/

set_option autoImplicit false

deriving instance DecidableEq for Except

namespace OSLCSpec

/-! ## List helpers (JavaScript `includes` / `endsWith` on strings,
viewed as operations on the character lists) -/

/-- `listIsInfixOf pat l`: JavaScript `String.prototype.includes`. -/
def listIsInfixOf {α : Type} [BEq α] : List α → List α → Bool
  | pat, [] => pat.isEmpty
  | pat, c :: rest => pat.isPrefixOf (c :: rest) || listIsInfixOf pat rest

/-- `listIsSuffixOf pat l`: JavaScript `String.prototype.endsWith`. -/
def listIsSuffixOf {α : Type} [BEq α] (pat l : List α) : Bool :=
  pat.reverse.isPrefixOf l.reverse

/-! ## RDF nodes and statements (model of rdflib terms) -/

/-- An rdflib term: a named node (URI), a literal with a datatype URI, or a
blank node.  `value` is the rdflib `.value` projection. -/
inductive Node where
  | named (uri : String)
  | literal (value : String) (datatype : String)
  | blank (id : String)
  deriving DecidableEq, Repr

/-- The rdflib `.value` of a term. -/
def Node.value : Node → String
  | .named u => u
  | .literal v _ => v
  | .blank i => i

/-- One subject–predicate–object statement of a graph. -/
structure Statement where
  subject : Node
  predicate : Node
  object : Node
  deriving DecidableEq, Repr

/-- An rdflib `IndexedFormula`: the statements of the graph in insertion
order.  `add` (below) refuses duplicates, so stores built through `add`
hold each triple at most once. -/
abbrev Store := List Statement

/-- Model of `IndexedFormula.statementsMatching(s, p, o)` where each
pattern position is either a concrete term or a wildcard (`none`):
all matching statements, in store (insertion) order. -/
def statementsMatching (s p o : Option Node) (st : Store) : List Statement :=
  st.filter fun q =>
    (match s with | none => true | some n => q.subject == n) &&
    (match p with | none => true | some n => q.predicate == n) &&
    (match o with | none => true | some n => q.object == n)

/-- Model of `IndexedFormula.each(s, p)`: the objects of all statements
with the given subject and predicate. -/
def each (s p : Node) (st : Store) : List Node :=
  (statementsMatching (some s) (some p) none st).map (·.object)

/-- Model of `IndexedFormula.any(s, p, null)` (and of `the(s, p)`, which
only adds a log message): the object of the first matching statement. -/
def anyObj (s p : Node) (st : Store) : Option Node :=
  (statementsMatching (some s) (some p) none st).head?.map (·.object)

/-- Model of `IndexedFormula.add(s, p, o)`: appends the statement unless
the store already holds it ("Takes care of duplicates" in rdflib). -/
def addStatement (st : Store) (q : Statement) : Store :=
  if q ∈ st then st else st ++ [q]

/-- Adding a list of statements in order (`$rdf.parse` into a store, or
the `for` loop of `OSLCResource.set`). -/
def addStatements (st : Store) (qs : List Statement) : Store :=
  qs.foldl addStatement st

/-- Model of `store.remove(store.statementsMatching(subject, p, undefined))`:
every statement about `subject` with predicate `p` is removed. -/
def removeSubjectPredicate (st : Store) (subject p : Node) : Store :=
  st.filter fun q => !(q.subject == subject && q.predicate == p)

/-! ## Namespace constants (from `src/namespaces`, documented in
`website/docs/api/namespaces.md`) -/

/-- `dcterms('title')`. -/
def dctermsTitle : Node := .named "http://purl.org/dc/terms/title"

/-- `dcterms('description')`. -/
def dctermsDescription : Node := .named "http://purl.org/dc/terms/description"

/-- `dcterms('identifier')`. -/
def dctermsIdentifier : Node := .named "http://purl.org/dc/terms/identifier"

/-- `oslc('shortTitle')`. -/
def oslcShortTitle : Node := .named "http://open-services.net/ns/core#shortTitle"

/-- `oslc('service')`. -/
def oslcService : Node := .named "http://open-services.net/ns/core#service"

/-- `oslc('creationFactory')`. -/
def oslcCreationFactory : Node := .named "http://open-services.net/ns/core#creationFactory"

/-- `oslc('resourceType')`. -/
def oslcResourceType : Node := .named "http://open-services.net/ns/core#resourceType"

/-- `oslc('creation')`. -/
def oslcCreation : Node := .named "http://open-services.net/ns/core#creation"

/-- `oslc('nextPage')`. -/
def oslcNextPage : Node := .named "http://open-services.net/ns/core#nextPage"

/-- The `rdf:XMLLiteral` datatype used by
`ServiceProviderCatalog.serviceProvider` for title literals. -/
def rdfXMLLiteral : String := "http://www.w3.org/1999/02/22-rdf-syntax-ns#XMLLiteral"

/-- The `xsd:string` datatype rdflib gives a plain `$rdf.literal(value)`. -/
def xsdString : String := "http://www.w3.org/2001/XMLSchema#string"

/-- The three fixed rootservices catalog predicates of `dist/OSLCClient.js`
(`serviceProviders` table), keyed by the domain tag. -/
inductive Domain where
  | CM | RM | QM
  deriving DecidableEq, Repr

/-- `serviceProviders[domain]`: `oslc_cm1("cmServiceProviders")`,
`oslc_rm("rmServiceProviders")`, `oslc_qm1("qmServiceProviders")`. -/
def serviceProvidersPred : Domain → Node
  | .CM => .named "http://open-services.net/xmlns/cm/1.0/cmServiceProviders"
  | .RM => .named "http://open-services.net/ns/rm#rmServiceProviders"
  | .QM => .named "http://open-services.net/xmlns/qm/1.0/qmServiceProviders"

/-! ## URL handling

`OSLCResource`'s constructor computes `new URL(uri)` and keeps
`origin + pathname`.  For an already-normalised absolute `http(s)` URL
that is the prefix of the string before its query string / fragment. -/

/-- `origin + pathname` of a normalised absolute URL: the characters
before the first `?` or `#`. -/
def urlOriginPath (u : String) : String :=
  String.mk (u.data.takeWhile fun c => !(c == '?' || c == '#'))

/-! ## `OSLCResource` (src/OSLCResource.ts) -/

/-- The result of `OSLCResource.get`: `undefined`, a single string value,
or the array of values. -/
inductive PropValue where
  | absent
  | one (s : String)
  | many (ss : List String)
  deriving DecidableEq, Repr

/-- The `value` argument of `OSLCResource.set`:
`RDFNode | RDFNode[] | undefined`. -/
inductive SetValue where
  | absent
  | single (n : Node)
  | multi (ns : List Node)
  deriving DecidableEq, Repr

/-- `OSLCResource`: a subject term, the shared store, the optional ETag
and the optional original query URI. -/
structure OSLCResource where
  uri : Node
  store : Store
  etag : Option String
  queryURI : Option String
  deriving DecidableEq, Repr

namespace OSLCResource

/-- The constructor branch for a given `uri` string: `queryURI`
keeps the full URL, `this.uri` is `$rdf.sym(url.origin + url.pathname)`,
the store is shared (or fresh when `null`). -/
def fromURI (uri : String) (store : Store) (etag : Option String) : OSLCResource :=
  { uri := .named (urlOriginPath uri)
    store := store
    etag := etag
    queryURI := some uri }

/-- The constructor branch for a `null` uri: an empty resource on a fresh
blank node and fresh store. -/
def emptyResource (blankId : String) : OSLCResource :=
  { uri := .blank blankId, store := [], etag := none, queryURI := none }

/-- `getURI()`: `this.uri.value`. -/
def getURI (r : OSLCResource) : String := r.uri.value

/-- `get(property)` for a property node `p` (a string property is first
turned into `store.sym(property)`): one value gives the single string,
several give the array of values, none gives `undefined`. -/
def getP (r : OSLCResource) (p : Node) : PropValue :=
  match (each r.uri p r.store).map Node.value with
  | [] => .absent
  | [v] => .one v
  | vs => .many vs

/-- `get` with a string property URI (`store.sym(property)`). -/
def get (r : OSLCResource) (p : String) : PropValue :=
  r.getP (.named p)

/-- `set(property, value)` for a property node: remove every current
value of the property for this subject, then add the new node(s) in
order (or nothing for `undefined`). -/
def setP (r : OSLCResource) (p : Node) (v : SetValue) : OSLCResource :=
  let removed := removeSubjectPredicate r.store r.uri p
  let store' :=
    match v with
    | .absent => removed
    | .single n => addStatement removed ⟨r.uri, p, n⟩
    | .multi ns => ns.foldl (fun st n => addStatement st ⟨r.uri, p, n⟩) removed
  { r with store := store' }

/-- `set` with a string property URI. -/
def set (r : OSLCResource) (p : String) (v : SetValue) : OSLCResource :=
  r.setP (.named p) v

/-- The common accessor shape: take the first element when the value is
an array (`Array.isArray(result) ? result[0] : result`). -/
def firstOf : PropValue → Option String
  | .absent => none
  | .one s => some s
  | .many ss => ss.head?

/-- `getTitle()`. -/
def getTitle (r : OSLCResource) : Option String := firstOf (r.getP dctermsTitle)

/-- `getDescription()`. -/
def getDescription (r : OSLCResource) : Option String :=
  firstOf (r.getP dctermsDescription)

/-- `getIdentifier()`. -/
def getIdentifier (r : OSLCResource) : Option String :=
  firstOf (r.getP dctermsIdentifier)

/-- `setTitle(value)`: `set(dcterms('title'), $rdf.literal(value))`. -/
def setTitle (r : OSLCResource) (v : String) : OSLCResource :=
  r.setP dctermsTitle (.single (.literal v xsdString))

/-- `setDescription(value)`. -/
def setDescription (r : OSLCResource) (v : String) : OSLCResource :=
  r.setP dctermsDescription (.single (.literal v xsdString))

/-- One step of the accumulation loop of `getProperties()`: a second
value for a key upgrades the entry to an array, further values append. -/
def insertProp (k v : String) : List (String × PropValue) → List (String × PropValue)
  | [] => [(k, .one v)]
  | (k', pv) :: rest =>
    if k' == k then
      (k', match pv with
           | .absent => .one v
           | .one s => .many [s, v]
           | .many ss => .many (ss ++ [v])) :: rest
    else (k', pv) :: insertProp k v rest

/-- `getProperties()`: the name→value(s) projection of every statement
about the subject, in store order. -/
def getProperties (r : OSLCResource) : List (String × PropValue) :=
  (statementsMatching (some r.uri) none none r.store).foldl
    (fun acc q => insertProp q.predicate.value q.object.value acc) []

end OSLCResource

/-! ## Discovery documents -/

/-- `RootServices.serviceProviderCatalog(serviceProviders)`:
`store.the(this.uri, serviceProviders)?.value` — the value of the first
statement of the root document's subject with the given catalog
predicate. -/
def rootServicesCatalog (r : OSLCResource) (pred : Node) : Option String :=
  (anyObj r.uri pred r.store).map Node.value

/-- `ServiceProviderCatalog.serviceProvider(title)`: the subject of the
first statement whose predicate is `dcterms:title` and whose object is
the literal `title` typed `rdf:XMLLiteral`
(`$rdf.literal(title, store.sym(XMLLiteral))`). -/
def serviceProviderLookup (st : Store) (title : String) : Option String :=
  match statementsMatching none (some dctermsTitle)
      (some (.literal title rdfXMLLiteral)) st with
  | [] => none
  | q :: _ => some q.subject.value

/-! ## `ServiceProvider.getCreationFactory` (src/ServiceProvider.ts)

The nested loops (services, then each service's creation factories, with
an early `return` on the first factory that matches) are flattened into
`find?` over the factories in iteration order. -/

/-- The creation factories in iteration order: for each object of
`oslc:service` on the provider, the objects of `oslc:creationFactory`. -/
def creationFactoryCandidates (st : Store) (uri : Node) : List Node :=
  (each uri oslcService st).flatMap fun s => each s oslcCreationFactory st

/-- `store.the(creationFactory, oslc('creation'))?.value || null`:
the first `oslc:creation` value, with the empty string collapsed to
`null` by `|| null`. -/
def creationValue (st : Store) (cf : Node) : Option String :=
  match anyObj cf oslcCreation st with
  | none => none
  | some n => if n.value == "" then none else some n.value

/-- The string-argument branch of `getCreationFactory`: the first
factory one of whose `oslc:resourceType` values merely *ends with* the
given string (`aType.value?.endsWith(resourceType)`). -/
def getCreationFactoryStr (st : Store) (uri : Node) (resourceType : String) :
    Option String :=
  match (creationFactoryCandidates st uri).find? (fun cf =>
      (each cf oslcResourceType st).any fun t =>
        listIsSuffixOf resourceType.data t.value.data) with
  | none => none
  | some cf => creationValue st cf

/-- The `NamedNode`-argument branch of `getCreationFactory`: the first
factory with *exactly one* `oslc:resourceType` statement for that node
(`statementsMatching(...).length === 1`). -/
def getCreationFactoryNode (st : Store) (uri : Node) (resourceType : Node) :
    Option String :=
  match (creationFactoryCandidates st uri).find? (fun cf =>
      (statementsMatching (some cf) (some oslcResourceType)
        (some resourceType) st).length == 1) with
  | none => none
  | some cf => creationValue st cf

/-! ## `getResource` (dist/OSLCClient.js)

The HTTP transport and the RDF parser are modelled together as a
function from URL to a fetch outcome.  A rejected axios promise (network
failure or a status refused by `validateStatus`) is `Except.error`.  The
body parse is pre-computed: `parsed` is the list of statements
`$rdf.parse` adds to the fresh graph and `parseOk` is false when the
parser threw (the statements added before the throw are kept, matching
the `catch` that only logs the error). -/

/-- The outcome of `$rdf.parse(response.data, graph, url, contentType)`:
the statements added to the graph, and whether the parser completed
without throwing. -/
structure ParseOutcome where
  added : List Statement
  ok : Bool
  deriving DecidableEq, Repr

/-- A fulfilled HTTP response as `getResource` consumes it. -/
structure FetchResp where
  etag : Option String
  contentType : String
  parse : ParseOutcome
  deriving DecidableEq, Repr

/-- The transport for discovery/read operations: URL to fulfilled
response or rejection message. -/
def DiscoveryServer : Type := String → Except String FetchResp

/-- The content-type dispatch of `getResource`. -/
inductive ContentKind where
  | xml | atomFeed | rdf
  deriving DecidableEq, Repr

/-- `contentType.includes("text/xml") || contentType.includes("application/xml")`
gives the XML branch; `contentType.includes("application/atom+xml")` the
feed branch; anything else is assumed to be an RDF representation. -/
def contentKind (ct : String) : ContentKind :=
  if listIsInfixOf "text/xml".data ct.data || listIsInfixOf "application/xml".data ct.data then
    .xml
  else if listIsInfixOf "application/atom+xml".data ct.data then .atomFeed
  else .rdf

/-- The result of `getResource`: an XML document, an Atom feed payload,
or an `OSLCResource` over the parsed graph. -/
inductive GetResult where
  | xmlDoc (etag : Option String)
  | feed (etag : Option String)
  | resource (r : OSLCResource)
  deriving DecidableEq, Repr

/-- `getResource(url)`: GET the URL; on the RDF branch parse the body
into a fresh graph — a parse failure is only logged — and wrap the graph
as `new OSLCResource(url, graph, etag)`. -/
def getResource (server : DiscoveryServer) (url : String) :
    Except String GetResult :=
  match server url with
  | .error e => .error e
  | .ok resp =>
    match contentKind resp.contentType with
    | .xml => .ok (.xmlDoc resp.etag)
    | .atomFeed => .ok (.feed resp.etag)
    | .rdf =>
      .ok (.resource (OSLCResource.fromURI url (addStatements [] resp.parse.added)
        resp.etag))

/-! ## The discovery chain `use` (dist/OSLCClient.js) -/

/-- The step-specific errors of `use` and the transport errors it
re-throws. -/
inductive UseError where
  /-- `"Failed to fetch rootservices document"` (also covers a
  non-RDF rootservices response, whose `resource.getURI()` throws inside
  the same `try`). -/
  | rootservicesFetchFailed
  /-- ```No ServiceProviderCatalog for ${domain} services```. -/
  | noCatalog (domain : Domain)
  /-- A re-thrown error while fetching the catalog. -/
  | catalogFetchFailed (msg : String)
  /-- ```${serviceProviderName} not found in service catalog```. -/
  | providerNotFound (name : String)
  /-- An error while fetching the resolved service provider. -/
  | providerFetchFailed (msg : String)
  deriving DecidableEq, Repr

/-- The terminal state of a successful `use`: the three wrapped
discovery documents. -/
structure UseState where
  rootservices : OSLCResource
  spc : OSLCResource
  sp : OSLCResource
  deriving DecidableEq, Repr

/-- Rewrap a fetched resource as a discovery document:
`new RootServices(resource.getURI(), resource.store, resource.etag)`
(likewise `ServiceProviderCatalog` / `ServiceProvider`): the
constructors all just run the `OSLCResource` constructor on the already
canonical URI with the shared store. -/
def rewrap (r : OSLCResource) : OSLCResource :=
  OSLCResource.fromURI r.getURI r.store r.etag

/-- `use(server_url, serviceProviderName, domain)`: fetch
`{base}/rootservices`, resolve the domain catalog predicate, fetch the
catalog, look the provider title up, fetch the provider.  The `!spcURL`
and `!spURL` JavaScript truthiness tests also treat an empty string as
missing. -/
def use (server : DiscoveryServer) (serverURL name : String) (domain : Domain) :
    Except UseError UseState :=
  let baseURL :=
    if listIsSuffixOf "/".data serverURL.data then String.mk serverURL.data.dropLast
    else serverURL
  match getResource server (baseURL ++ "/rootservices") with
  | .error _ => .error .rootservicesFetchFailed
  | .ok (.xmlDoc _) => .error .rootservicesFetchFailed
  | .ok (.feed _) => .error .rootservicesFetchFailed
  | .ok (.resource r0) =>
    let rootservices := rewrap r0
    match rootServicesCatalog rootservices (serviceProvidersPred domain) with
    | none => .error (.noCatalog domain)
    | some spcURL =>
      if spcURL == "" then .error (.noCatalog domain)
      else
        match getResource server spcURL with
        | .error e => .error (.catalogFetchFailed e)
        | .ok (.xmlDoc _) => .error (.catalogFetchFailed "not an RDF response")
        | .ok (.feed _) => .error (.catalogFetchFailed "not an RDF response")
        | .ok (.resource r1) =>
          let spc := rewrap r1
          match serviceProviderLookup spc.store name with
          | none => .error (.providerNotFound name)
          | some spURL =>
            if spURL == "" then .error (.providerNotFound name)
            else
              match getResource server spURL with
              | .error e => .error (.providerFetchFailed e)
              | .ok (.xmlDoc _) => .error (.providerFetchFailed "not an RDF response")
              | .ok (.feed _) => .error (.providerFetchFailed "not an RDF response")
              | .ok (.resource r2) =>
                .ok { rootservices := rootservices, spc := spc, sp := rewrap r2 }

/-! ## Query engine (`queryWithBase`, dist/OSLCClient.js)

The response to each page GET is modelled as a status code plus the
pre-computed parse outcome of its body.  The axios client is configured
with `validateStatus: (status) => status === 401 || status < 400`; a
refused status rejects the promise, which `queryWithBase` does not
catch.  A `$rdf.parse` throw is caught and only logged.  The `while`
loop over `nextPage` links is given explicit fuel; exhausted fuel
(`none` in the result) models a fetch chain longer than the fuel.  The
`Nat` component counts the page fetches issued. -/

/-- A query page response: HTTP status and body-parse outcome. -/
structure PageResp where
  status : Nat
  parse : ParseOutcome
  deriving DecidableEq, Repr

/-- The transport for query operations. -/
def QueryServer : Type := String → PageResp

/-- `validateStatus: (status) => status === 401 || status < 400`:
a refused status rejects the axios promise. -/
def clientGet (server : QueryServer) (url : String) : Except String PageResp :=
  let r := server url
  if r.status == 401 || r.status < 400 then .ok r
  else .error ("Request failed with status code " ++ toString r.status)

/-- `QueryParams`: the optional OSLC filter fields. -/
structure QueryParams where
  prefixes : Option String := none
  select : Option String := none
  whereClause : Option String := none
  orderBy : Option String := none
  deriving DecidableEq, Repr

/-- The `URLSearchParams` built by `queryWithBase`: `oslc.prefix`,
`oslc.select`, `oslc.where`, `oslc.orderBy` in order when present, then
always `oslc.paging=false`.  (URL-encoding of the values is abstracted;
the claims do not depend on it.) -/
def queryString (q : QueryParams) : String :=
  let fields :=
    (match q.prefixes with | none => [] | some v => ["oslc.prefix=" ++ v]) ++
    (match q.select with | none => [] | some v => ["oslc.select=" ++ v]) ++
    (match q.whereClause with | none => [] | some v => ["oslc.where=" ++ v]) ++
    (match q.orderBy with | none => [] | some v => ["oslc.orderBy=" ++ v]) ++
    ["oslc.paging=false"]
  String.intercalate "&" fields

/-- ``let url = `${queryBase}?${params.toString()}` ``. -/
def buildQueryURL (queryBase : String) (q : QueryParams) : String :=
  queryBase ++ "?" ++ queryString q

/-- `store.any(sym(key), oslc("nextPage"), null)?.value`. -/
def nextPageOf (store : Store) (key : String) : Option String :=
  (anyObj (.named key) oslcNextPage store).map Node.value

/-- The `while (nextPage)` loop: fetch the next page, parse it into the
*same* store (a parse throw only logged), and look up the next link from
the just-fetched page's subject.  Returns the number of fetches issued
and `none` when the fuel ran out before the chain ended. -/
def queryLoop (server : QueryServer) :
    Nat → Store → Option String → Nat × Option (Except String Store)
  | _, store, none => (0, some (.ok store))
  | 0, _, some _ => (0, none)
  | fuel + 1, store, some np =>
    match clientGet server np with
    | .error e => (1, some (.error e))
    | .ok resp =>
      let store' := addStatements store resp.parse.added
      let (n, r) := queryLoop server fuel store' (nextPageOf store' np)
      (1 + n, r)

/-- `queryWithBase(queryBase, query)`: build the URL, fetch the first
page (`response.status !== 200` throws a query error), parse it into a
fresh store, then follow `nextPage` links accumulating into the same
store.  The `Nat` is the number of page fetches issued. -/
def queryWithBase (server : QueryServer) (fuel : Nat) (queryBase : String)
    (q : QueryParams) : Nat × Option (Except String Store) :=
  let url := buildQueryURL queryBase q
  match clientGet server url with
  | .error e => (1, some (.error e))
  | .ok resp =>
    if resp.status != 200 then
      (1, some (.error ("Failed to query resource. Status: " ++ toString resp.status)))
    else
      let store := addStatements [] resp.parse.added
      let (n, r) := queryLoop server fuel store (nextPageOf store queryBase)
      (1 + n, r)

/-! ## Authentication response interceptor (dist/OSLCClient.js)

The interceptor is installed with `this.client.interceptors.response.use`
and every retry goes through `this.client.request`, so a retried
request's response is evaluated by the same interceptor again.  The
model makes that recursion explicit, with fuel: `clientRun` issues a
request, then dispatches on the challenge of the response exactly as the
`if` / `else if` chain does.  The credential POST of the form branch and
the token POST of the jauth branch are abstracted into the server model
(`formLoginOk`, `jauthToken`).  The `Nat` result counts the requests
issued to `respond`; `none` means the fuel ran out (the recursion had
not returned). -/

/-- A request as the interceptor can mutate it: the basic-auth fallback
sets `auth`, the jauth branch sets a `Bearer` authorization header. -/
structure AuthRequest where
  url : String
  basicAuth : Bool := false
  bearer : Option String := none
  deriving DecidableEq, Repr

/-- The response fields the interceptor inspects. -/
structure AuthResponse where
  status : Nat
  webAuthMsg : Option String := none
  wwwAuthenticate : Option String := none
  body : String := ""
  deriving DecidableEq, Repr

/-- The server side of the auth negotiation: the response to each
request, whether the form-login POST succeeds (redirect status), and the
token returned by a POST to a jauth `token_uri` (or `none` if that POST
fails). -/
structure AuthServer where
  respond : AuthRequest → AuthResponse
  formLoginOk : Bool
  jauthToken : String → Option String

/-- `wwwAuthenticate.match(/token_uri="([^"]+)"/)?.[1]` for the first
occurrence of `token_uri="`: the nonempty run up to a closing quote. -/
def extractTokenUri (s : String) : Option String :=
  match afterFirst "token_uri=\"".data s.data with
  | none => none
  | some rest =>
    let tok := rest.takeWhile fun c => c != '"'
    if tok.isEmpty then none
    else if (rest.drop tok.length).head? == some '"' then some (String.mk tok)
    else none
where
  /-- The characters after the first occurrence of `pat`. -/
  afterFirst (pat : List Char) : List Char → Option (List Char)
    | [] => none
    | c :: rest =>
      if pat.isPrefixOf (c :: rest) then some ((c :: rest).drop pat.length)
      else afterFirst pat rest

/-- The challenge kinds, in the fixed priority order of the `if` chain. -/
inductive Challenge where
  | formLogin
  | jauthToken (tokenUri : Option String)
  | basicAuth
  | noChallenge
  deriving DecidableEq, Repr

/-- The dispatch of the response interceptor, in source order:
1. `headers["x-com-ibm-team-repository-web-auth-msg"] === "authrequired"`
   (regardless of the status) selects the JEE form-login path;
2. otherwise `status === 401 && wwwAuthenticate?.includes("jauth realm")`
   selects the token path;
3. otherwise `status === 401` selects the basic-auth fallback;
4. otherwise the response passes through. -/
def challengeOf (resp : AuthResponse) : Challenge :=
  if resp.webAuthMsg == some "authrequired" then .formLogin
  else if resp.status == 401 &&
      (match resp.wwwAuthenticate with
       | none => false
       | some s => listIsInfixOf "jauth realm".data s.data) then
    .jauthToken (match resp.wwwAuthenticate with
                 | none => none
                 | some s => extractTokenUri s)
  else if resp.status == 401 then .basicAuth
  else .noChallenge

/-- The errors the interceptor can reject with. -/
inductive AuthError where
  /-- The form-login credential POST failed (no 302). -/
  | formLoginFailed
  /-- `"No token_uri found in jauth challenge"`. -/
  | noTokenUri
  /-- The POST to the token endpoint failed. -/
  | tokenPostFailed
  deriving DecidableEq, Repr

/-- One request through the client: issue it, run the interceptor on the
response.  Every retry re-enters `clientRun` (the code retries with
`this.client.request`, which runs the same interceptor on the retried
response).  Counts the requests issued to `respond`. -/
def clientRun (server : AuthServer) :
    Nat → AuthRequest → Nat × Option (Except AuthError AuthResponse)
  | 0, _ => (0, none)
  | fuel + 1, req =>
    let resp := server.respond req
    match challengeOf resp with
    | .formLogin =>
      if server.formLoginOk then
        let (n, r) := clientRun server fuel req
        (n + 1, r)
      else (1, some (.error .formLoginFailed))
    | .jauthToken tokenUri =>
      match tokenUri with
      | none => (1, some (.error .noTokenUri))
      | some tu =>
        match server.jauthToken tu with
        | none => (1, some (.error .tokenPostFailed))
        | some tok =>
          let (n, r) := clientRun server fuel { req with bearer := some tok }
          (n + 1, r)
    | .basicAuth =>
      let (n, r) := clientRun server fuel { req with basicAuth := true }
      (n + 1, r)
    | .noChallenge => (1, some (.ok resp))

/-! ## `putResource` (dist/OSLCClient.js) -/

/-- A PUT response: status and body. -/
structure PutResponse where
  status : Nat
  body : String
  deriving DecidableEq, Repr

/-- The transport for updates: URL and headers to response. -/
def PutServer : Type := String → List (String × String) → PutResponse

/-- The headers of `putResource`: the fixed three, plus `If-Match` exactly
when an ETag was supplied. -/
def putHeaders (eTag : Option String) : List (String × String) :=
  [("OSLC-Core-Version", "2.0"),
   ("Content-Type", "application/rdf+xml; charset=utf-8"),
   ("Accept", "application/rdf+xml")] ++
  (match eTag with | none => [] | some t => [("If-Match", t)])

/-- The errors `putResource` can raise: the transport rejection for a
status `validateStatus` refuses, or the explicit
``Failed to update resource ${url}. Status: ...`` throw.  Both carry the
response status and body. -/
inductive PutError where
  | transport (url : String) (status : Nat) (body : String)
  | updateFailed (url : String) (status : Nat) (body : String)
  deriving DecidableEq, Repr

/-- The status carried by a `putResource` error. -/
def PutError.status : PutError → Nat
  | .transport _ s _ => s
  | .updateFailed _ s _ => s

/-- The response body carried by a `putResource` error. -/
def PutError.body : PutError → String
  | .transport _ _ b => b
  | .updateFailed _ _ b => b

/-- The request URL carried by a `putResource` error. -/
def PutError.url : PutError → String
  | .transport u _ _ => u
  | .updateFailed u _ _ => u

/-- `putResource(resource, eTag)`: PUT the serialized store to
`resource.getURI()` with `If-Match` iff an ETag is given; a status the
client's `validateStatus` refuses rejects (uncaught), a fulfilled status
other than 200/201 raises the update error, a 200/201 returns the
resource unchanged.  (The `if (!graph)` guard cannot fire in this model:
the store field is always present.) -/
def putResource (server : PutServer) (resource : OSLCResource)
    (eTag : Option String) : Except PutError OSLCResource :=
  let url := resource.getURI
  let headers := putHeaders eTag
  let resp := server url headers
  if resp.status == 401 || resp.status < 400 then
    if resp.status != 200 && resp.status != 201 then
      .error (.updateFailed url resp.status resp.body)
    else .ok resource
  else .error (.transport url resp.status resp.body)

/-! ## The node list of a `set` value -/

/-- The nodes a `set` call adds: none for `undefined`, the one node, or
the array. -/
def setValueNodes : SetValue → List Node
  | .absent => []
  | .single n => [n]
  | .multi ns => ns

/-! ## Linked page chains (for stating the pagination claim)

`chainOK server key store pages` says: looked up in the store
accumulated so far, the subject `key` links (first match) to the next
page URL, that URL answers 200 with the page's graph, and so on; after
the last page the accumulated store holds no further link from its
subject. -/

/-- The next-page chain condition, following the accumulation order of
`queryWithBase`. -/
def chainOK (server : QueryServer) : String → Store → List (String × List Statement) → Bool
  | key, store, [] => nextPageOf store key == none
  | key, store, (u, g) :: rest =>
    nextPageOf store key == some u &&
    server u == ({ status := 200, parse := ⟨g, true⟩ } : PageResp) &&
    chainOK server u (addStatements store g) rest

/-! ## Concrete fixtures used by witnesses and counterexamples -/

/-- `rdfs('member')`, used in the query-result fixtures. -/
def rdfsMember : Node := .named "http://www.w3.org/2000/01/rdf-schema#member"

/-- Page 1 of the three-page query fixture: one member and a
`oslc:nextPage` link from the query base subject. -/
def pageGraph1 : List Statement :=
  [⟨.named "https://srv/qb", rdfsMember, .named "https://srv/cr/1"⟩,
   ⟨.named "https://srv/qb", oslcNextPage, .named "https://srv/qb?page=2"⟩]

/-- Page 2: one member and a link to page 3. -/
def pageGraph2 : List Statement :=
  [⟨.named "https://srv/qb?page=2", rdfsMember, .named "https://srv/cr/2"⟩,
   ⟨.named "https://srv/qb?page=2", oslcNextPage, .named "https://srv/qb?page=3"⟩]

/-- Page 3: one member, no further link. -/
def pageGraph3 : List Statement :=
  [⟨.named "https://srv/qb?page=3", rdfsMember, .named "https://srv/cr/3"⟩]

/-- A query server with a three-page linked result. -/
def threePageServer : QueryServer := fun u =>
  if u == "https://srv/qb?oslc.paging=false" then { status := 200, parse := ⟨pageGraph1, true⟩ }
  else if u == "https://srv/qb?page=2" then { status := 200, parse := ⟨pageGraph2, true⟩ }
  else if u == "https://srv/qb?page=3" then { status := 200, parse := ⟨pageGraph3, true⟩ }
  else { status := 404, parse := ⟨[], true⟩ }

/-- A server that answers every request — original and retried alike —
with a bare HTTP 401 carrying neither the form marker nor a jauth
challenge (e.g. rejected basic credentials). -/
def rejectingBasicServer : AuthServer :=
  { respond := fun _ => { status := 401 },
    formLoginOk := false,
    jauthToken := fun _ => none }

/-- A response carrying *both* the form-authentication marker header and
an unauthorized status (and even a jauth challenge header). -/
def formAndUnauthorizedResp : AuthResponse :=
  { status := 401
    webAuthMsg := some "authrequired"
    wwwAuthenticate := some "jauth realm=\"r\" token_uri=\"https://srv/token\"" }

/-- A server whose responses never carry a challenge. -/
def passThroughServer : AuthServer :=
  { respond := fun _ => { status := 200, body := "ok" },
    formLoginOk := true,
    jauthToken := fun _ => none }

/-- A server that demands form authentication and rejects the credential
POST: the interceptor takes the form path (and fails there), it does not
fall back to basic authentication. -/
def formRejectServer : AuthServer :=
  { respond := fun _ => { status := 401, webAuthMsg := some "authrequired" },
    formLoginOk := false,
    jauthToken := fun _ => none }

/-! # Store lemmas -/

/-- A statement with subject `s` and predicate `p` is in the store iff
its object is among `each s p`. -/
theorem mem_store_iff_mem_each (s p n : Node) (st : Store) :
    (⟨s, p, n⟩ : Statement) ∈ st ↔ n ∈ each s p st := by
  simp only [each, statementsMatching, List.mem_map, List.mem_filter]
  constructor
  · intro h
    exact ⟨⟨s, p, n⟩, ⟨h, by simp⟩, rfl⟩
  · rintro ⟨⟨qs, qp, qo⟩, ⟨hq, hmatch⟩, hobj⟩
    simp only [Bool.and_eq_true, beq_iff_eq] at hmatch
    obtain ⟨⟨h1, h2⟩, -⟩ := hmatch
    subst h1; subst h2
    cases hobj
    exact hq

/-- After `removeSubjectPredicate` no statement about `(s, p)` remains. -/
theorem statementsMatching_remove (st : Store) (s p : Node) :
    statementsMatching (some s) (some p) none (removeSubjectPredicate st s p) = [] := by
  rw [List.eq_nil_iff_forall_not_mem]
  intro q hq
  simp only [statementsMatching, removeSubjectPredicate, List.mem_filter,
    Bool.and_eq_true, beq_iff_eq, Bool.not_eq_true'] at hq
  obtain ⟨⟨-, hkeep⟩, ⟨h1, h2⟩, -⟩ := hq
  simp [h1, h2] at hkeep

/-- `each` after removal is empty. -/
theorem each_remove (st : Store) (s p : Node) :
    each s p (removeSubjectPredicate st s p) = [] := by
  simp [each, statementsMatching_remove]

/-- Appending a statement about `(s, p)` appends its object to `each`. -/
theorem each_append_single (st : Store) (s p n : Node) :
    each s p (st ++ [⟨s, p, n⟩]) = each s p st ++ [n] := by
  simp [each, statementsMatching, List.filter_append]

/-- Adding pairwise-distinct fresh objects for `(s, p)` appends them to
`each` in order. -/
theorem each_foldl_add (s p : Node) (vs : List Node) :
    ∀ b : Store, (each s p b ++ vs).Nodup →
      each s p (vs.foldl (fun st n => addStatement st ⟨s, p, n⟩) b) = each s p b ++ vs := by
  induction vs with
  | nil => intro b _; simp
  | cons n rest ih =>
    intro b hnodup
    have hsplit := hnodup
    rw [List.nodup_append] at hsplit
    obtain ⟨-, hns, hdisj⟩ := hsplit
    have hnotmem : (⟨s, p, n⟩ : Statement) ∉ b := by
      rw [mem_store_iff_mem_each]
      intro hmem
      exact hdisj hmem (List.mem_cons_self n rest)
    have hgrow : (each s p (b ++ [⟨s, p, n⟩]) ++ rest).Nodup := by
      rw [each_append_single, List.append_assoc]
      simpa using hnodup
    calc each s p ((n :: rest).foldl (fun st q => addStatement st ⟨s, p, q⟩) b)
        = each s p (rest.foldl (fun st q => addStatement st ⟨s, p, q⟩) (b ++ [⟨s, p, n⟩])) := by
          simp [List.foldl_cons, addStatement, hnotmem]
      _ = each s p (b ++ [⟨s, p, n⟩]) ++ rest := ih (b ++ [⟨s, p, n⟩]) hgrow
      _ = each s p b ++ n :: rest := by rw [each_append_single, List.append_assoc]; rfl

/-- Membership after a single `addStatement`. -/
theorem mem_addStatement (st : Store) (q q' : Statement) :
    q ∈ addStatement st q' → q ∈ st ∨ q = q' := by
  intro h
  by_cases hmem : q' ∈ st
  · simp [addStatement, hmem] at h
    exact Or.inl h
  · simp [addStatement, hmem] at h
    exact h

/-- Membership after the `set` add loop: either an old statement or one
of the added ones. -/
theorem mem_foldl_addStatement (s p : Node) (vs : List Node) :
    ∀ (b : Store) (q : Statement),
      q ∈ vs.foldl (fun st n => addStatement st ⟨s, p, n⟩) b →
      q ∈ b ∨ ∃ n ∈ vs, q = ⟨s, p, n⟩ := by
  induction vs with
  | nil => intro b q h; exact Or.inl h
  | cons n rest ih =>
    intro b q h
    rcases ih (addStatement b ⟨s, p, n⟩) q h with hb | ⟨m, hm, rfl⟩
    · rcases mem_addStatement _ _ _ hb with hb' | rfl
      · exact Or.inl hb'
      · exact Or.inr ⟨n, List.mem_cons_self n rest, rfl⟩
    · exact Or.inr ⟨m, List.mem_cons_of_mem n hm, rfl⟩

/-- `set` never changes the subject term (helper, also used for C9). -/
theorem setP_uri_eq (r : OSLCResource) (p : Node) (v : SetValue) :
    (r.setP p v).uri = r.uri := rfl

/-- `set` with a string property never changes the subject term. -/
theorem set_uri_eq (r : OSLCResource) (p : String) (v : SetValue) :
    (r.set p v).uri = r.uri := rfl

/-- `each` on the store after `set`: `absent` leaves nothing. -/
theorem each_after_set_absent (r : OSLCResource) (p : String) :
    each r.uri (.named p) ((r.set p .absent).store) = [] := by
  simp [OSLCResource.set, OSLCResource.setP, each_remove]

/-- `each` on the store after `set` with a single node. -/
theorem each_after_set_single (r : OSLCResource) (p : String) (n : Node) :
    each r.uri (.named p) ((r.set p (.single n)).store) = [n] := by
  have hnot : (⟨r.uri, .named p, n⟩ : Statement) ∉
      removeSubjectPredicate r.store r.uri (.named p) := by
    rw [mem_store_iff_mem_each, each_remove]
    simp
  simp only [OSLCResource.set, OSLCResource.setP, addStatement, if_neg hnot]
  rw [each_append_single, each_remove, List.nil_append]

/-- `each` on the store after `set` with a duplicate-free array. -/
theorem each_after_set_multi (r : OSLCResource) (p : String) (vs : List Node)
    (hnd : vs.Nodup) :
    each r.uri (.named p) ((r.set p (.multi vs)).store) = vs := by
  have h := each_foldl_add r.uri (.named p) vs
    (removeSubjectPredicate r.store r.uri (.named p))
    (by rw [each_remove]; simpa using hnd)
  simpa [OSLCResource.set, OSLCResource.setP, each_remove] using h

/-- C1 (amended).  `set(P, vs)` followed by `get(P)` round-trips: an
`undefined` value deletes the property (`get` returns `undefined`), a
single node reads back as its single string, a duplicate-free array of
two or more nodes reads back as the ordered list of their strings, and
after any `set` every statement of `P` on the subject is one of the new
values (all previous values removed).  The store is a set of triples
(rdflib `add` skips a statement it already holds), so the
duplicate-freeness hypothesis on the array case is necessary: see the
counterexample for the original unconditional claim. -/
theorem c1_set_get_full_replace (r : OSLCResource) (p : String) (n : Node)
    (vs : List Node) (sv : SetValue) (hnd : vs.Nodup) :
    (r.set p .absent).get p = .absent ∧
    (r.set p (.single n)).get p = .one n.value ∧
    each r.uri (.named p) ((r.set p (.multi vs)).store) = vs ∧
    (2 ≤ vs.length → (r.set p (.multi vs)).get p = .many (vs.map Node.value)) ∧
    (∀ q ∈ (r.set p sv).store, q.subject = r.uri → q.predicate = .named p →
      q.object ∈ setValueNodes sv) := by
  refine ⟨?_, ?_, each_after_set_multi r p vs hnd, ?_, ?_⟩
  · simp [OSLCResource.get, OSLCResource.getP, set_uri_eq, each_after_set_absent r p]
  · simp [OSLCResource.get, OSLCResource.getP, set_uri_eq, each_after_set_single r p n]
  · intro hlen
    match vs, hnd, hlen with
    | x :: y :: rest, hnd, _ =>
      have hx := each_after_set_multi r p (x :: y :: rest) hnd
      simp [OSLCResource.get, OSLCResource.getP, set_uri_eq, hx]
  · intro q hq hsubj hpred
    have hremoved : q ∉ removeSubjectPredicate r.store r.uri (.named p) := by
      intro hmem
      simp only [removeSubjectPredicate, List.mem_filter, Bool.not_eq_true',
        Bool.and_eq_true, beq_iff_eq] at hmem
      rw [Bool.and_eq_false_iff] at hmem
      rcases hmem.2 with h | h <;> simp [hsubj, hpred] at h
    cases sv with
    | absent =>
      exact absurd hq hremoved
    | single m =>
      rcases mem_addStatement _ _ _ hq with h | rfl
      · exact absurd h hremoved
      · simp [setValueNodes]
    | multi ms =>
      rcases mem_foldl_addStatement r.uri (.named p) ms _ q hq with h | ⟨m, hm, rfl⟩
      · exact absurd h hremoved
      · simpa [setValueNodes] using hm

/-- C1, counterexample to the original claim: setting the two-element
array `["a", "a"]` (the same literal twice) and reading back yields the
single string `"a"`, not the list `["a", "a"]` — the store keeps one
copy of the duplicated triple. -/
theorem c1_duplicate_multi_counterexample :
    (((OSLCResource.fromURI "https://ex.org/r" [] none).set "https://ex.org/p"
        (.multi [.literal "a" xsdString, .literal "a" xsdString])).get "https://ex.org/p"
      = .one "a") ∧
    PropValue.one "a" ≠ PropValue.many ["a", "a"] := by decide

/-- C1, witness: the round trip at a concrete two-element duplicate-free
array. -/
theorem c1_set_get_full_replace_witness :
    ([Node.literal "a" xsdString, Node.literal "b" xsdString].Nodup ∧
      2 ≤ [Node.literal "a" xsdString, Node.literal "b" xsdString].length) ∧
    ((OSLCResource.fromURI "https://ex.org/r" [] none).set "https://ex.org/p"
        (.multi [.literal "a" xsdString, .literal "b" xsdString])).get "https://ex.org/p"
      = .many ["a", "b"] := by
  refine ⟨⟨by decide, by decide⟩, ?_⟩
  have h := c1_set_get_full_replace (OSLCResource.fromURI "https://ex.org/r" [] none)
    "https://ex.org/p" (Node.literal "a" xsdString)
    [Node.literal "a" xsdString, Node.literal "b" xsdString]
    (.multi [Node.literal "a" xsdString, Node.literal "b" xsdString]) (by decide)
  simpa using h.2.2.2.1 (by decide)

/-- A fulfilled RDF response with the given parsed graph. -/
def rdfResp (g : List Statement) : Except String FetchResp :=
  .ok { etag := none, contentType := "application/rdf+xml", parse := ⟨g, true⟩ }

/-- The rootservices graph of the discovery fixture: a CM catalog link. -/
def rootservicesGraphCM : List Statement :=
  [⟨.named "https://srv/ccm/rootservices", serviceProvidersPred .CM,
    .named "https://srv/ccm/catalog"⟩]

/-- The catalog graph of the discovery fixture: one provider titled
`"Alpha Project"`. -/
def catalogGraphAlpha : List Statement :=
  [⟨.named "https://srv/sp/1", dctermsTitle, .literal "Alpha Project" rdfXMLLiteral⟩]

/-- A discovery server with a CM rootservices document and a one-entry
catalog. -/
def discoveryServerCM : DiscoveryServer := fun u =>
  if u == "https://srv/ccm/rootservices" then rdfResp rootservicesGraphCM
  else if u == "https://srv/ccm/catalog" then rdfResp catalogGraphAlpha
  else .error "Request failed with status code 404"

/-- A rootservices document carrying only the RM catalog predicate. -/
def rootservicesGraphRMOnly : List Statement :=
  [⟨.named "https://srv/ccm/rootservices", serviceProvidersPred .RM,
    .named "https://srv/rm/catalog"⟩]

/-- A discovery server whose rootservices document has no CM catalog. -/
def rmOnlyServer : DiscoveryServer := fun u =>
  if u == "https://srv/ccm/rootservices" then rdfResp rootservicesGraphRMOnly
  else .error "Request failed with status code 404"

/-- A discovery server whose (RDF) response bodies fail to parse: the
graph stays empty and the parser threw. -/
def parseFailServer : DiscoveryServer := fun _ =>
  .ok { etag := some "W9", contentType := "text/turtle", parse := ⟨[], false⟩ }

/-- A query server whose response bodies fail to parse. -/
def parseFailQueryServer : QueryServer := fun _ =>
  { status := 200, parse := ⟨[], false⟩ }

/-- The service-provider subject of the creation-factory fixture. -/
def spURI : Node := .named "https://srv/sp"

/-- The `oslc:cm#ChangeRequest` resource-type node of the fixture. -/
def crNode : Node := .named "http://open-services.net/ns/cm#ChangeRequest"

/-- A service provider store: one service, one creation factory with one
`oslc:resourceType` and its creation URI. -/
def spStore : Store :=
  [⟨spURI, oslcService, .named "https://srv/sp/svc"⟩,
   ⟨.named "https://srv/sp/svc", oslcCreationFactory, .named "https://srv/sp/cf"⟩,
   ⟨.named "https://srv/sp/cf", oslcResourceType, crNode⟩,
   ⟨.named "https://srv/sp/cf", oslcCreation, .named "https://srv/create"⟩]

/-- The same store with the `oslc:resourceType` statement duplicated (a
raw statement list `add` would never build, exercising the
`length === 1` guard of the `NamedNode` branch). -/
def spStoreDupType : Store :=
  [⟨spURI, oslcService, .named "https://srv/sp/svc"⟩,
   ⟨.named "https://srv/sp/svc", oslcCreationFactory, .named "https://srv/sp/cf"⟩,
   ⟨.named "https://srv/sp/cf", oslcResourceType, crNode⟩,
   ⟨.named "https://srv/sp/cf", oslcResourceType, crNode⟩,
   ⟨.named "https://srv/sp/cf", oslcCreation, .named "https://srv/create"⟩]

/-! # Membership lemmas for graph accumulation -/

/-- The added statement is in the store after `addStatement`. -/
theorem mem_addStatement_self (st : Store) (q : Statement) : q ∈ addStatement st q := by
  by_cases h : q ∈ st <;> simp [addStatement, h]

/-- Old statements survive `addStatement`. -/
theorem mem_addStatement_left (st : Store) (q q' : Statement) (h : q ∈ st) :
    q ∈ addStatement st q' := by
  by_cases h' : q' ∈ st <;> simp [addStatement, h', h]

/-- Old statements survive `addStatements`. -/
theorem mem_addStatements_left (g : List Statement) :
    ∀ (st : Store) (q : Statement), q ∈ st → q ∈ addStatements st g := by
  induction g with
  | nil => intro st q h; exact h
  | cons x xs ih =>
    intro st q h
    simp only [addStatements, List.foldl_cons]
    exact ih (addStatement st x) q (mem_addStatement_left st q x h)

/-- Every parsed statement is in the store after `addStatements`. -/
theorem mem_addStatements_right (g : List Statement) :
    ∀ (st : Store) (q : Statement), q ∈ g → q ∈ addStatements st g := by
  induction g with
  | nil => intro st q h; cases h
  | cons x xs ih =>
    intro st q h
    simp only [addStatements, List.foldl_cons]
    rcases List.mem_cons.mp h with rfl | h'
    · exact mem_addStatements_left xs (addStatement st q) q (mem_addStatement_self st q)
    · exact ih (addStatement st x) q h'

/-- Old statements survive folding whole pages in. -/
theorem mem_pagesFoldl_left (pages : List (String × List Statement)) :
    ∀ (st : Store) (q : Statement), q ∈ st →
      q ∈ pages.foldl (fun s pg => addStatements s pg.2) st := by
  induction pages with
  | nil => intro st q h; exact h
  | cons p ps ih =>
    intro st q h
    simp only [List.foldl_cons]
    exact ih (addStatements st p.2) q (mem_addStatements_left p.2 st q h)

/-- Every statement of every folded page is in the accumulated store. -/
theorem mem_pagesFoldl_of_mem (pages : List (String × List Statement)) :
    ∀ (st : Store) (q : Statement) (pg : String × List Statement),
      pg ∈ pages → q ∈ pg.2 →
      q ∈ pages.foldl (fun s pg => addStatements s pg.2) st := by
  induction pages with
  | nil => intro st q pg h; cases h
  | cons p ps ih =>
    intro st q pg hpg hq
    simp only [List.foldl_cons]
    rcases List.mem_cons.mp hpg with rfl | h'
    · exact mem_pagesFoldl_left ps (addStatements st pg.2) q
        (mem_addStatements_right pg.2 st q hq)
    · exact ih (addStatements st p.2) q pg h' hq

/-! # C3: pagination -/

/-- The `while` loop follows an intact chain to its end: one fetch per
page, all pages parsed into the same store. -/
theorem queryLoop_chain (server : QueryServer) (pages : List (String × List Statement)) :
    ∀ (key : String) (store : Store) (fuel : Nat),
      chainOK server key store pages = true → pages.length ≤ fuel →
      queryLoop server fuel store (nextPageOf store key) =
        (pages.length, some (.ok (pages.foldl (fun s pg => addStatements s pg.2) store))) := by
  induction pages with
  | nil =>
    intro key store fuel hchain _
    simp only [chainOK, beq_iff_eq] at hchain
    rw [hchain]
    cases fuel <;> rfl
  | cons pg rest ih =>
    intro key store fuel hchain hlen
    obtain ⟨u, g⟩ := pg
    simp only [chainOK, Bool.and_eq_true, beq_iff_eq] at hchain
    obtain ⟨⟨hnp, hserv⟩, hrest⟩ := hchain
    match fuel, hlen with
    | f + 1, hlen =>
      rw [hnp]
      have hget : clientGet server u = .ok ({ status := 200, parse := ⟨g, true⟩ } : PageResp) := by
        simp [clientGet, hserv]
      have hih := ih u (addStatements store g) f hrest (Nat.le_of_succ_le_succ hlen)
      simp only [queryLoop, hget, hih, List.foldl_cons, List.length_cons]
      exact Prod.ext (Nat.add_comm 1 rest.length) rfl

/-- C3.  For a first page answered 200 and an intact chain of further
linked pages, `queryWithBase` issues exactly one fetch per page
(`1 + pages.length` in total, the first included) and returns, without
error, the store accumulating all the pages; every statement of the
first page and of every linked page is in the returned store. -/
theorem c3_pagination_accumulates (server : QueryServer) (queryBase : String)
    (q : QueryParams) (g0 : List Statement)
    (pages : List (String × List Statement)) (fuel : Nat)
    (h0 : server (buildQueryURL queryBase q) = { status := 200, parse := ⟨g0, true⟩ })
    (hchain : chainOK server queryBase (addStatements [] g0) pages = true)
    (hfuel : pages.length ≤ fuel) :
    queryWithBase server fuel queryBase q =
      (1 + pages.length,
        some (.ok (pages.foldl (fun s pg => addStatements s pg.2) (addStatements [] g0)))) ∧
    (∀ st ∈ g0, st ∈ pages.foldl (fun s pg => addStatements s pg.2) (addStatements [] g0)) ∧
    (∀ pg ∈ pages, ∀ st ∈ pg.2,
      st ∈ pages.foldl (fun s pg => addStatements s pg.2) (addStatements [] g0)) := by
  refine ⟨?_, ?_, ?_⟩
  · have hget : clientGet server (buildQueryURL queryBase q) =
        .ok ({ status := 200, parse := ⟨g0, true⟩ } : PageResp) := by
      simp [clientGet, h0]
    have hloop := queryLoop_chain server pages queryBase (addStatements [] g0) fuel hchain hfuel
    simp only [queryWithBase, hget, hloop]
    rfl
  · intro st hst
    exact mem_pagesFoldl_left pages (addStatements [] g0) st
      (mem_addStatements_right g0 [] st hst)
  · intro pg hpg st hst
    exact mem_pagesFoldl_of_mem pages (addStatements [] g0) st pg hpg hst

/-- C3, witness: three concrete linked pages — three fetches, and the
returned store is the union of all three page graphs. -/
theorem c3_pagination_accumulates_witness :
    (threePageServer (buildQueryURL "https://srv/qb" {}) =
        { status := 200, parse := ⟨pageGraph1, true⟩ } ∧
      chainOK threePageServer "https://srv/qb" (addStatements [] pageGraph1)
        [("https://srv/qb?page=2", pageGraph2), ("https://srv/qb?page=3", pageGraph3)] = true ∧
      [("https://srv/qb?page=2", pageGraph2),
        ("https://srv/qb?page=3", pageGraph3)].length ≤ 2) ∧
    queryWithBase threePageServer 2 "https://srv/qb" {} =
      (3, some (.ok (pageGraph1 ++ pageGraph2 ++ pageGraph3))) := by
  refine ⟨⟨by decide, by decide, by decide⟩, ?_⟩
  have h := (c3_pagination_accumulates threePageServer "https://srv/qb" {} pageGraph1
    [("https://srv/qb?page=2", pageGraph2), ("https://srv/qb?page=3", pageGraph3)] 2
    (by decide) (by decide) (by decide)).1
  rw [h]
  decide

/-! # C2: the single-retry claim against the interceptor's recursion -/

/-- C2 (refuting the code): against a server that keeps answering 401,
the interceptor issues one more authenticated retry for every unit of
fuel and never returns — the second 401 is *not* surfaced to the caller
and a further retry *is* performed, for any bound.  (The code retries
through `this.client.request`, whose response is processed by the same
interceptor again; no retry flag stops the recursion.) -/
theorem c2_retry_not_bounded (fuel : Nat) (req : AuthRequest) :
    clientRun rejectingBasicServer fuel req = (fuel, none) := by
  induction fuel generalizing req with
  | zero => rfl
  | succ f ih =>
    have hch : challengeOf (rejectingBasicServer.respond req) = .basicAuth := rfl
    simp only [clientRun, hch, ih]

/-! # C6: challenge priority and pass-through -/

/-- C6.  The interceptor's dispatch is evaluated in the source's fixed
order: (1) any response whose form-authentication marker header is
`authrequired` — in particular one that also has status 401 — selects
the form-login path, not the token path and not the basic fallback;
(2) operationally, with such a response and a failing credential POST
the run ends in the form-login error, no basic retry happens;
(3) a response with no challenge passes through unchanged. -/
theorem c6_challenge_priority (resp : AuthResponse) (server : AuthServer)
    (fuel : Nat) (req : AuthRequest) :
    (resp.webAuthMsg = some "authrequired" → challengeOf resp = .formLogin) ∧
    ((server.respond req).webAuthMsg = some "authrequired" →
      server.formLoginOk = false →
      clientRun server (fuel + 1) req = (1, some (.error .formLoginFailed))) ∧
    (challengeOf (server.respond req) = .noChallenge →
      clientRun server (fuel + 1) req = (1, some (.ok (server.respond req)))) := by
  refine ⟨?_, ?_, ?_⟩
  · intro h
    simp [challengeOf, h]
  · intro h hok
    have hch : challengeOf (server.respond req) = .formLogin := by
      simp [challengeOf, h]
    simp [clientRun, hch, hok]
  · intro h
    simp [clientRun, h]

/-- C6, witness: the dispatch at a concrete response carrying both the
form marker and status 401, the concrete form-path failure, and a
concrete pass-through. -/
theorem c6_challenge_priority_witness :
    (formAndUnauthorizedResp.webAuthMsg = some "authrequired" ∧
      formAndUnauthorizedResp.status = 401 ∧
      challengeOf formAndUnauthorizedResp = .formLogin) ∧
    ((formRejectServer.respond { url := "https://srv/x" }).webAuthMsg =
        some "authrequired" ∧
      formRejectServer.formLoginOk = false ∧
      clientRun formRejectServer 1 { url := "https://srv/x" } =
        (1, some (.error .formLoginFailed))) ∧
    (challengeOf (passThroughServer.respond { url := "https://srv/x" }) = .noChallenge ∧
      clientRun passThroughServer 1 { url := "https://srv/x" } =
        (1, some (.ok (passThroughServer.respond { url := "https://srv/x" })))) := by
  refine ⟨⟨by decide, by decide, ?_⟩, ⟨by decide, by decide, ?_⟩, ⟨by decide, ?_⟩⟩
  · exact (c6_challenge_priority formAndUnauthorizedResp passThroughServer 0
      { url := "https://srv/x" }).1 (by decide)
  · exact (c6_challenge_priority formAndUnauthorizedResp formRejectServer 0
      { url := "https://srv/x" }).2.1 (by decide) (by decide)
  · exact (c6_challenge_priority formAndUnauthorizedResp passThroughServer 0
      { url := "https://srv/x" }).2.2 (by decide)

/-! # C4: exact, case-sensitive catalog title lookup -/

/-- C4.  `serviceProvider(title)` returns a subject only when the store
holds a `dcterms:title` statement whose literal is *exactly* the given
string (typed `rdf:XMLLiteral`); when no title value equals the string
it returns `undefined`; matching is case-sensitive and does not trim
(`"Alpha Project"` is not found as `"alpha project"`); and when the
lookup is `undefined`, `use` fails with the provider-not-found error. -/
theorem c4_catalog_title_exact (st : Store) (t s : String)
    (server : DiscoveryServer) (r0 r1 : OSLCResource)
    (url name spcURL : String) (domain : Domain) :
    (serviceProviderLookup st t = some s →
      ∃ q ∈ st, q.predicate = dctermsTitle ∧
        q.object = Node.literal t rdfXMLLiteral ∧ q.subject.value = s) ∧
    ((∀ q ∈ st, q.predicate = dctermsTitle → q.object.value ≠ t) →
      serviceProviderLookup st t = none) ∧
    (serviceProviderLookup
      [⟨.named "https://srv/sp/1", dctermsTitle, .literal "Alpha Project" rdfXMLLiteral⟩]
      "alpha project" = none) ∧
    (serviceProviderLookup
      [⟨.named "https://srv/sp/1", dctermsTitle, .literal "Alpha Project" rdfXMLLiteral⟩]
      "Alpha Project" = some "https://srv/sp/1") ∧
    (getResource server
        ((if listIsSuffixOf "/".data url.data then String.mk url.data.dropLast else url) ++ "/rootservices") =
        .ok (.resource r0) →
      rootServicesCatalog (rewrap r0) (serviceProvidersPred domain) = some spcURL →
      spcURL ≠ "" →
      getResource server spcURL = .ok (.resource r1) →
      serviceProviderLookup (rewrap r1).store name = none →
      use server url name domain = .error (.providerNotFound name)) := by
  refine ⟨?_, ?_, by decide, by decide, ?_⟩
  · intro h
    unfold serviceProviderLookup at h
    cases heq : statementsMatching none (some dctermsTitle)
        (some (.literal t rdfXMLLiteral)) st with
    | nil => rw [heq] at h; cases h
    | cons q rest =>
      rw [heq] at h
      have hmem : q ∈ statementsMatching none (some dctermsTitle)
          (some (.literal t rdfXMLLiteral)) st := by
        rw [heq]; exact List.mem_cons_self q rest
      simp only [statementsMatching, List.mem_filter, Bool.and_eq_true,
        beq_iff_eq] at hmem
      obtain ⟨hq, ⟨-, hpred⟩, hobj⟩ := hmem
      exact ⟨q, hq, hpred, hobj, Option.some.inj h⟩
  · intro hno
    unfold serviceProviderLookup
    cases heq : statementsMatching none (some dctermsTitle)
        (some (.literal t rdfXMLLiteral)) st with
    | nil => rfl
    | cons q rest =>
      exfalso
      have hmem : q ∈ statementsMatching none (some dctermsTitle)
          (some (.literal t rdfXMLLiteral)) st := by
        rw [heq]; exact List.mem_cons_self q rest
      simp only [statementsMatching, List.mem_filter, Bool.and_eq_true,
        beq_iff_eq] at hmem
      obtain ⟨hq, ⟨-, hpred⟩, hobj⟩ := hmem
      exact hno q hq hpred (by rw [hobj]; rfl)
  · intro h1 h2 h3 h4 h5
    have h3' : (spcURL == "") = false := by
      exact beq_eq_false_iff_ne.mpr h3
    simp only [use, h1, h2, h3', h4, h5]
    rfl

/-- C4, witness: using a fixture whose catalog holds only
`"Alpha Project"`, looking up `"Beta"` ends the chain with the
provider-not-found error. -/
theorem c4_catalog_title_exact_witness :
    (getResource discoveryServerCM
        ((if listIsSuffixOf "/".data "https://srv/ccm".data then
          String.mk "https://srv/ccm".data.dropLast else "https://srv/ccm") ++ "/rootservices") =
        .ok (.resource (OSLCResource.fromURI "https://srv/ccm/rootservices"
          (addStatements [] rootservicesGraphCM) none)) ∧
      rootServicesCatalog
        (rewrap (OSLCResource.fromURI "https://srv/ccm/rootservices"
          (addStatements [] rootservicesGraphCM) none))
        (serviceProvidersPred .CM) = some "https://srv/ccm/catalog" ∧
      "https://srv/ccm/catalog" ≠ "" ∧
      getResource discoveryServerCM "https://srv/ccm/catalog" =
        .ok (.resource (OSLCResource.fromURI "https://srv/ccm/catalog"
          (addStatements [] catalogGraphAlpha) none)) ∧
      serviceProviderLookup
        (rewrap (OSLCResource.fromURI "https://srv/ccm/catalog"
          (addStatements [] catalogGraphAlpha) none)).store "Beta" = none) ∧
    use discoveryServerCM "https://srv/ccm" "Beta" .CM =
      .error (.providerNotFound "Beta") := by
  refine ⟨⟨by decide, by decide, by decide, by decide, by decide⟩, ?_⟩
  exact (c4_catalog_title_exact catalogGraphAlpha "x" "y" discoveryServerCM
    (OSLCResource.fromURI "https://srv/ccm/rootservices"
      (addStatements [] rootservicesGraphCM) none)
    (OSLCResource.fromURI "https://srv/ccm/catalog"
      (addStatements [] catalogGraphAlpha) none)
    "https://srv/ccm" "Beta" "https://srv/ccm/catalog" .CM).2.2.2.2
    (by decide) (by decide) (by decide) (by decide) (by decide)

/-! # C5: missing domain predicate -/

/-- C5.  When the fetched rootservices document — whatever its graph,
including one left empty or partial by a swallowed parse failure — has
no statement for the requested domain's catalog predicate (or only an
empty-string value, which JavaScript truthiness also treats as missing),
`use` fails with the domain-not-available error
(``No ServiceProviderCatalog for ${domain} services``), not with a parse
error and not with any later discovery step's error. -/
theorem c5_missing_domain_predicate (server : DiscoveryServer) (r0 : OSLCResource)
    (url name : String) (domain : Domain) :
    (getResource server
        ((if listIsSuffixOf "/".data url.data then String.mk url.data.dropLast else url) ++ "/rootservices") =
        .ok (.resource r0) →
      rootServicesCatalog (rewrap r0) (serviceProvidersPred domain) = none →
      use server url name domain = .error (.noCatalog domain)) ∧
    (getResource server
        ((if listIsSuffixOf "/".data url.data then String.mk url.data.dropLast else url) ++ "/rootservices") =
        .ok (.resource r0) →
      rootServicesCatalog (rewrap r0) (serviceProvidersPred domain) = some "" →
      use server url name domain = .error (.noCatalog domain)) := by
  constructor
  · intro h1 h2
    simp only [use, h1, h2]
  · intro h1 h2
    simp only [use, h1, h2]
    rfl

/-- C5, witness: a rootservices document carrying only the RM catalog
predicate, asked for CM. -/
theorem c5_missing_domain_predicate_witness :
    (getResource rmOnlyServer
        ((if listIsSuffixOf "/".data "https://srv/ccm".data then
          String.mk "https://srv/ccm".data.dropLast else "https://srv/ccm") ++ "/rootservices") =
        .ok (.resource (OSLCResource.fromURI "https://srv/ccm/rootservices"
          (addStatements [] rootservicesGraphRMOnly) none)) ∧
      rootServicesCatalog
        (rewrap (OSLCResource.fromURI "https://srv/ccm/rootservices"
          (addStatements [] rootservicesGraphRMOnly) none))
        (serviceProvidersPred .CM) = none) ∧
    use rmOnlyServer "https://srv/ccm" "Alpha Project" .CM =
      .error (.noCatalog .CM) := by
  refine ⟨⟨by decide, by decide⟩, ?_⟩
  exact (c5_missing_domain_predicate rmOnlyServer
    (OSLCResource.fromURI "https://srv/ccm/rootservices"
      (addStatements [] rootservicesGraphRMOnly) none)
    "https://srv/ccm" "Alpha Project" .CM).1 (by decide) (by decide)

/-! # C7: update semantics -/

/-- C7.  `putResource` sends the `If-Match` header exactly when an ETag
is supplied, addresses the resource's own URI, raises for every
status other than 200/201 an error carrying that URL, the response
status and the response body (a stale token's 412 included), and on
200/201 returns the resource. -/
theorem c7_put_resource (server : PutServer) (r : OSLCResource)
    (eTag : Option String) (t : String) :
    ("If-Match", t) ∈ putHeaders (some t) ∧
    (∀ p ∈ putHeaders none, p.1 ≠ "If-Match") ∧
    ((server r.getURI (putHeaders eTag)).status ≠ 200 →
      (server r.getURI (putHeaders eTag)).status ≠ 201 →
      ∃ err, putResource server r eTag = .error err ∧
        err.url = r.getURI ∧
        err.status = (server r.getURI (putHeaders eTag)).status ∧
        err.body = (server r.getURI (putHeaders eTag)).body) ∧
    ((server r.getURI (putHeaders eTag)).status = 200 ∨
      (server r.getURI (putHeaders eTag)).status = 201 →
      putResource server r eTag = .ok r) := by
  refine ⟨by simp [putHeaders], ?_, ?_, ?_⟩
  · intro p hp
    simp only [putHeaders, List.append_nil, List.mem_cons, List.not_mem_nil,
      or_false] at hp
    rcases hp with rfl | rfl | rfl <;> decide
  · intro h2 h3
    simp only [putResource]
    split
    · split
      · exact ⟨_, rfl, rfl, rfl, rfl⟩
      · rename_i hcond
        simp [h2, h3] at hcond
    · exact ⟨_, rfl, rfl, rfl, rfl⟩
  · intro h
    rcases h with h | h <;>
      · simp only [putResource, h]
        rfl

/-- C7, witness: a fixture rejecting the stale token with 412 — the
raised error carries the 412 status and the fixture's body. -/
theorem c7_put_resource_witness :
    (((fun _ _ => { status := 412, body := "stale tag" }) : PutServer)
        (OSLCResource.fromURI "https://srv/cr/1" [] none).getURI
        (putHeaders (some "W1")) |>.status) ≠ 200 ∧
    (((fun _ _ => { status := 412, body := "stale tag" }) : PutServer)
        (OSLCResource.fromURI "https://srv/cr/1" [] none).getURI
        (putHeaders (some "W1")) |>.status) ≠ 201 ∧
    ∃ err,
      putResource (fun _ _ => { status := 412, body := "stale tag" })
        (OSLCResource.fromURI "https://srv/cr/1" [] none) (some "W1") = .error err ∧
      err.url = (OSLCResource.fromURI "https://srv/cr/1" [] none).getURI ∧
      err.status = 412 ∧ err.body = "stale tag" := by
  refine ⟨by decide, by decide, ?_⟩
  exact (c7_put_resource (fun _ _ => { status := 412, body := "stale tag" })
    (OSLCResource.fromURI "https://srv/cr/1" [] none) (some "W1") "W1").2.2.1
    (by decide) (by decide)

/-! # C8: parse failures are swallowed -/

/-- C8.  A failed body parse is never raised: `getResource` still
returns an `OSLCResource` over whatever (partial or empty) graph the
parser left, and `queryWithBase` still returns the accumulated store,
in both cases as a success value. -/
theorem c8_parse_failures_swallowed (server : DiscoveryServer) (url : String)
    (resp : FetchResp) (qserver : QueryServer) (qb : String) (q : QueryParams)
    (g : List Statement) :
    (server url = .ok resp → contentKind resp.contentType = .rdf →
      resp.parse.ok = false →
      getResource server url =
        .ok (.resource (OSLCResource.fromURI url
          (addStatements [] resp.parse.added) resp.etag))) ∧
    (qserver (buildQueryURL qb q) = { status := 200, parse := ⟨g, false⟩ } →
      nextPageOf (addStatements [] g) qb = none →
      queryWithBase qserver 0 qb q = (1, some (.ok (addStatements [] g)))) := by
  constructor
  · intro h1 h2 _
    simp only [getResource, h1, h2]
  · intro h1 h2
    have hget : clientGet qserver (buildQueryURL qb q) =
        .ok ({ status := 200, parse := ⟨g, false⟩ } : PageResp) := by
      simp [clientGet, h1]
    simp only [queryWithBase, hget, h2]
    rfl

/-- C8, witness: a server whose every body fails to parse — the read
still yields a resource over the empty graph, the query still yields
the (empty) accumulated store. -/
theorem c8_parse_failures_swallowed_witness :
    (parseFailServer "https://srv/cr/1" =
        .ok { etag := some "W9", contentType := "text/turtle", parse := ⟨[], false⟩ } ∧
      contentKind "text/turtle" = .rdf ∧
      parseFailQueryServer (buildQueryURL "https://srv/qb" {}) =
        { status := 200, parse := ⟨[], false⟩ } ∧
      nextPageOf (addStatements [] []) "https://srv/qb" = none) ∧
    getResource parseFailServer "https://srv/cr/1" =
      .ok (.resource (OSLCResource.fromURI "https://srv/cr/1"
        (addStatements [] []) (some "W9"))) ∧
    queryWithBase parseFailQueryServer 0 "https://srv/qb" {} =
      (1, some (.ok (addStatements [] []))) := by
  refine ⟨⟨by decide, by decide, by decide, by decide⟩, ?_, ?_⟩
  · exact (c8_parse_failures_swallowed parseFailServer "https://srv/cr/1"
      { etag := some "W9", contentType := "text/turtle", parse := ⟨[], false⟩ }
      parseFailQueryServer "https://srv/qb" {} []).1 (by decide) (by decide) (by decide)
  · exact (c8_parse_failures_swallowed parseFailServer "https://srv/cr/1"
      { etag := some "W9", contentType := "text/turtle", parse := ⟨[], false⟩ }
      parseFailQueryServer "https://srv/qb" {} []).2 (by decide) (by decide)

/-! # C9: canonical URI -/

/-- C9.  A resource constructed from a URL is addressed by the URL's
origin + path with the query string stripped, the full URL is retained
as the original query URI, and no mutator (`set` by node or string
property, `setTitle`, `setDescription`) ever changes the canonical URI;
the reading operations (`get`, `getProperties`, ...) are pure and return
data, not a modified resource. -/
theorem c9_canonical_uri_stable (u : String) (st : Store) (etag : Option String)
    (r : OSLCResource) (p : String) (pn : Node) (sv : SetValue) (v : String) :
    (OSLCResource.fromURI u st etag).uri = .named (urlOriginPath u) ∧
    (OSLCResource.fromURI u st etag).queryURI = some u ∧
    (OSLCResource.fromURI "https://srv/ccm/resource?rev=2&sel=a" [] none).uri =
      .named "https://srv/ccm/resource" ∧
    (r.set p sv).uri = r.uri ∧
    (r.setP pn sv).uri = r.uri ∧
    (r.setTitle v).uri = r.uri ∧
    (r.setDescription v).uri = r.uri :=
  ⟨rfl, rfl, by decide, rfl, rfl, rfl, rfl⟩

/-! # C10: creation-factory lookup -/

/-- C10.  `getCreationFactory` with a string returns the creation URI of
the first factory having some `oslc:resourceType` that merely *ends
with* the string (suffix, not equality — the concrete fixture matches
`"ChangeRequest"` against the full type URI), and returns `null` when no
factory's type matches; with a `NamedNode` it matches a factory exactly
when the store holds exactly one `resourceType` statement for that node
(zero, or a duplicated statement, yield no match). -/
theorem c10_creation_factory_matching (st : Store) (uri rtNode : Node)
    (rt c : String) :
    (getCreationFactoryStr st uri rt = some c →
      ∃ cf ∈ creationFactoryCandidates st uri,
        (each cf oslcResourceType st).any
          (fun ty => listIsSuffixOf rt.data ty.value.data) = true ∧
        creationValue st cf = some c) ∧
    ((∀ cf ∈ creationFactoryCandidates st uri,
        (each cf oslcResourceType st).any
          (fun ty => listIsSuffixOf rt.data ty.value.data) = false) →
      getCreationFactoryStr st uri rt = none) ∧
    (getCreationFactoryNode st uri rtNode = some c →
      ∃ cf ∈ creationFactoryCandidates st uri,
        (statementsMatching (some cf) (some oslcResourceType) (some rtNode) st).length = 1 ∧
        creationValue st cf = some c) ∧
    ((∀ cf ∈ creationFactoryCandidates st uri,
        (statementsMatching (some cf) (some oslcResourceType) (some rtNode) st).length ≠ 1) →
      getCreationFactoryNode st uri rtNode = none) ∧
    (getCreationFactoryStr spStore spURI "ChangeRequest" = some "https://srv/create" ∧
      crNode.value ≠ "ChangeRequest") ∧
    (getCreationFactoryNode spStoreDupType spURI crNode = none ∧
      getCreationFactoryNode spStore spURI crNode = some "https://srv/create") := by
  refine ⟨?_, ?_, ?_, ?_, by decide, by decide⟩
  · intro h
    unfold getCreationFactoryStr at h
    cases hf : (creationFactoryCandidates st uri).find? (fun cf =>
        (each cf oslcResourceType st).any fun ty =>
          listIsSuffixOf rt.data ty.value.data) with
    | none => rw [hf] at h; cases h
    | some cf =>
      rw [hf] at h
      have hp := List.find?_some hf
      exact ⟨cf, List.mem_of_find?_eq_some hf, hp, h⟩
  · intro hall
    unfold getCreationFactoryStr
    have : (creationFactoryCandidates st uri).find? (fun cf =>
        (each cf oslcResourceType st).any fun ty =>
          listIsSuffixOf rt.data ty.value.data) = none := by
      rw [List.find?_eq_none]
      intro cf hcf
      simp [hall cf hcf]
    rw [this]
  · intro h
    unfold getCreationFactoryNode at h
    cases hf : (creationFactoryCandidates st uri).find? (fun cf =>
        (statementsMatching (some cf) (some oslcResourceType)
          (some rtNode) st).length == 1) with
    | none => rw [hf] at h; cases h
    | some cf =>
      rw [hf] at h
      have hp := List.find?_some hf
      rw [beq_iff_eq] at hp
      exact ⟨cf, List.mem_of_find?_eq_some hf, hp, h⟩
  · intro hall
    unfold getCreationFactoryNode
    have : (creationFactoryCandidates st uri).find? (fun cf =>
        (statementsMatching (some cf) (some oslcResourceType)
          (some rtNode) st).length == 1) = none := by
      rw [List.find?_eq_none]
      intro cf hcf
      simp [hall cf hcf]
    rw [this]

/-- C10, witness: the fixture factory is found by string suffix, and the
`NamedNode` path at the duplicated-statement store finds nothing. -/
theorem c10_creation_factory_matching_witness :
    (getCreationFactoryStr spStore spURI "ChangeRequest" = some "https://srv/create" ∧
      (∀ cf ∈ creationFactoryCandidates spStoreDupType spURI,
        (statementsMatching (some cf) (some oslcResourceType)
          (some crNode) spStoreDupType).length ≠ 1)) ∧
    (∃ cf ∈ creationFactoryCandidates spStore spURI,
      (each cf oslcResourceType spStore).any
        (fun ty => listIsSuffixOf "ChangeRequest".data ty.value.data) = true ∧
      creationValue spStore cf = some "https://srv/create") ∧
    getCreationFactoryNode spStoreDupType spURI crNode = none := by
  refine ⟨⟨by decide, by decide⟩, ?_, ?_⟩
  · exact (c10_creation_factory_matching spStore spURI crNode "ChangeRequest"
      "https://srv/create").1 (by decide)
  · exact (c10_creation_factory_matching spStoreDupType spURI crNode "ChangeRequest"
      "https://srv/create").2.2.2.1 (by decide)

end OSLCSpec
